import Mathlib

/-!
Verification of the streaming run protocol of the tambo repository
(react-sdk v1): the event accumulator (stream reducer), the tool call
tracker, the tool executor, and the run orchestrator of
`useTamboV1SendMessage` (src/unnamed/part_005).

The orchestrator (`useTamboV1SendMessage`, `executeToolsAndContinue`,
`createRunStream`) is embedded from its source in src/unnamed/part_005.
The event accumulator, the tool call tracker and the tool executor are
referenced by that source and by the test files under src/react-sdk, but
their implementation files (event-accumulator.ts, tool-call-tracker.ts,
tool-executor.ts) are not part of the corpus; they are modelled from the
specification, as marked on each definition.
-/

set_option autoImplicit false

namespace Tambo

/-- Message roles carried by TEXT_MESSAGE_START events. -/
inductive Role where
  | user
  | assistant
  | tool
deriving DecidableEq, Repr

/-- The inbound AG-UI event vocabulary consumed from the transport
(spec section 6): RUN_STARTED, TEXT_MESSAGE_START/CONTENT/END,
TOOL_INPUT_START/DELTA, TOOL_CALL, RUN_ERROR, the finish signal, the
custom `tambo.run.awaiting_input` signal, and unknown event types
(ignored for forward compatibility). -/
inductive Event where
  | runStarted (runId : String) (threadId : String)
  | textMessageStart (messageId : String) (role : Role)
  | textMessageContent (messageId : String) (delta : String)
  | textMessageEnd (messageId : String)
  | toolInputStart (toolName : String)
  | toolInputDelta (delta : String)
  | toolCall (toolCallId : String) (toolName : String) (args : String)
  | runError (message : String)
  | runFinished
  | awaitingInput (pendingToolCallIds : List String)
  | unknown (tag : String)
deriving DecidableEq, Repr

/-- Printable name of an event type, used in the orchestrator's protocol
error message. -/
def Event.typeName : Event → String
  | .runStarted _ _ => "RUN_STARTED"
  | .textMessageStart _ _ => "TEXT_MESSAGE_START"
  | .textMessageContent _ _ => "TEXT_MESSAGE_CONTENT"
  | .textMessageEnd _ => "TEXT_MESSAGE_END"
  | .toolInputStart _ => "TOOL_INPUT_START"
  | .toolInputDelta _ => "TOOL_INPUT_DELTA"
  | .toolCall _ _ _ => "TOOL_CALL"
  | .runError _ => "RUN_ERROR"
  | .runFinished => "RUN_FINISHED"
  | .awaitingInput _ => "CUSTOM"
  | .unknown tag => tag

/-- Thread status values (spec section 3). -/
inductive ThreadStatus where
  | idle
  | streaming
  | awaitingInput
  | error
  | complete
deriving DecidableEq, Repr

/-- Streaming status values of the per-thread StreamingState (spec
section 3). -/
inductive StreamingStatus where
  | idle
  | streaming
  | awaitingInput
  | error
deriving DecidableEq, Repr

/-- A message: identifier, role, text content accumulated from delta
fragments, and a completion flag (spec section 3). -/
structure Message where
  id : String
  role : Role
  content : String
  complete : Bool
deriving DecidableEq, Repr

/-- A thread: identifier, ordered messages, status, optional title,
opaque metadata and the last-run-cancelled flag (spec section 3). -/
structure Thread where
  id : String
  messages : List Message
  status : ThreadStatus
  title : Option String
  metadata : List (String × String)
  lastRunCancelled : Bool
deriving DecidableEq, Repr

/-- Per-thread streaming state: run-progress status, current run id,
current streamed message id, and last error message (spec section 3). -/
structure StreamingState where
  status : StreamingStatus
  runId : Option String
  currentMessageId : Option String
  lastError : Option String
deriving DecidableEq, Repr

/-- One entry of the thread map: the accumulated thread plus its
streaming state. -/
structure ThreadEntry where
  thread : Thread
  streaming : StreamingState
deriving DecidableEq, Repr

/-- Optional initial thread data passed to INIT_THREAD (the
`Partial<TamboV1Thread>` overrides used by the tests: title and
metadata). -/
structure ThreadInit where
  title : Option String
  metadata : List (String × String)
deriving DecidableEq, Repr

/-- The state held by the stream context: thread map plus current
thread pointer (spec section 3, src/unnamed/part_004 initializes it to
an empty map and a null current thread). -/
structure StreamState where
  threadMap : List (String × ThreadEntry)
  currentThreadId : Option String
deriving DecidableEq, Repr

/-- Actions of the stream reducer (spec section 4.1 and the dispatches
in src/unnamed/part_004): INIT_THREAD, SET_CURRENT_THREAD,
START_NEW_THREAD, and EVENT. -/
inductive StreamAction where
  | initThread (threadId : String) (initialThread : Option ThreadInit)
  | setCurrentThread (threadId : Option String)
  | startNewThread (threadId : String)
  | event (threadId : String) (e : Event)
deriving DecidableEq, Repr

/-- Association-list lookup by key (first match wins). -/
def alookup {α : Type} (k : String) : List (String × α) → Option α
  | [] => none
  | (k', v) :: rest => if k' = k then some v else alookup k rest

/-- Association-list map applied to every entry stored under key `k`. -/
def amap {α : Type} (k : String) (f : α → α) : List (String × α) → List (String × α)
  | [] => []
  | (k', v) :: rest => (k', if k' = k then f v else v) :: amap k f rest

/-- Find the first message with the given id. -/
def findMsg (m : String) : List Message → Option Message
  | [] => none
  | msg :: rest => if msg.id = m then some msg else findMsg m rest

/-- Default thread inserted on initialization: given id, no messages,
status idle (spec section 4.1 and the INIT_THREAD tests in
src/react-sdk/src/v1/providers/tambo-v1-stream-context.test.tsx). -/
def defaultThread (tid : String) : Thread :=
  { id := tid, messages := [], status := .idle, title := none, metadata := [],
    lastRunCancelled := false }

/-- Default thread-map entry: default thread with idle streaming state. -/
def defaultEntry (tid : String) : ThreadEntry :=
  { thread := defaultThread tid,
    streaming := { status := .idle, runId := none, currentMessageId := none,
                   lastError := none } }

/-- Entry built by INIT_THREAD: defaults merged with the supplied
partial overrides (title, metadata). -/
def initEntry (tid : String) (ini : Option ThreadInit) : ThreadEntry :=
  match ini with
  | none => defaultEntry tid
  | some i =>
    { defaultEntry tid with
      thread := { defaultThread tid with title := i.title, metadata := i.metadata } }

/-- Modelled from the spec: the per-event transition of the Event
Accumulator (spec section 4.1; the implementation file
event-accumulator.ts is not in the corpus). run-started sets thread and
streaming status to `streaming` and records the run id;
text-message-start appends a message scaffold with empty text;
text-message-content concatenates the delta onto the matching
not-yet-complete message; text-message-end marks the message complete
(no further deltas accepted for that id); run-error sets status `error`,
stores the message and clears the streaming run id; the finish signal
sets status `complete`; the awaiting-input signal sets status
`awaiting_input`; tool argument streaming events are observed by the
Tool Call Tracker and leave thread state unchanged; unknown events are
ignored. -/
def applyEventToEntry (e : Event) (en : ThreadEntry) : ThreadEntry :=
  match e with
  | .runStarted rid _ =>
    { en with
      thread := { en.thread with status := .streaming },
      streaming := { en.streaming with status := .streaming, runId := some rid } }
  | .textMessageStart mid role =>
    { en with
      thread := { en.thread with
        messages := en.thread.messages ++ [{ id := mid, role := role, content := "", complete := false }] },
      streaming := { en.streaming with currentMessageId := some mid } }
  | .textMessageContent mid d =>
    { en with
      thread := { en.thread with
        messages := en.thread.messages.map fun msg =>
          if msg.id = mid ∧ msg.complete = false then
            { msg with content := msg.content ++ d }
          else msg } }
  | .textMessageEnd mid =>
    { en with
      thread := { en.thread with
        messages := en.thread.messages.map fun msg =>
          if msg.id = mid then { msg with complete := true } else msg },
      streaming := { en.streaming with
        currentMessageId :=
          if en.streaming.currentMessageId = some mid then none
          else en.streaming.currentMessageId } }
  | .runError msg =>
    { en with
      thread := { en.thread with status := .error },
      streaming :=
        { en.streaming with
          status := .error
          runId := none
          lastError := some msg } }
  | .runFinished =>
    { en with
      thread := { en.thread with status := .complete },
      streaming := { en.streaming with status := .idle } }
  | .awaitingInput _ =>
    { en with
      thread := { en.thread with status := .awaitingInput },
      streaming := { en.streaming with status := .awaitingInput } }
  | .toolInputStart _ => en
  | .toolInputDelta _ => en
  | .toolCall _ _ _ => en
  | .unknown _ => en

/-- Modelled from the spec: the pure stream reducer `(state, action) ->
newState` of the Event Accumulator (spec section 4.1; the implementation
file event-accumulator.ts is not in the corpus). INIT_THREAD inserts a
default entry merged with the overrides and is a no-op when the thread
is already present; SET_CURRENT_THREAD updates the pointer;
START_NEW_THREAD atomically inserts and switches; EVENT applies the
event to the thread keyed by the id it is given, creating the thread on
first reference. -/
def streamReducer (s : StreamState) (a : StreamAction) : StreamState :=
  match a with
  | .initThread tid ini =>
    match alookup tid s.threadMap with
    | some _ => s
    | none => { s with threadMap := s.threadMap ++ [(tid, initEntry tid ini)] }
  | .setCurrentThread tid => { s with currentThreadId := tid }
  | .startNewThread tid =>
    match alookup tid s.threadMap with
    | some _ => { s with currentThreadId := some tid }
    | none =>
      { threadMap := s.threadMap ++ [(tid, defaultEntry tid)],
        currentThreadId := some tid }
  | .event tid e =>
    match alookup tid s.threadMap with
    | some _ => { s with threadMap := amap tid (applyEventToEntry e) s.threadMap }
    | none =>
      { s with threadMap := s.threadMap ++ [(tid, applyEventToEntry e (defaultEntry tid))] }

/-- Apply a list of events to a given thread through the reducer, in
arrival order. -/
def applyEvents (t : String) : StreamState → List Event → StreamState
  | s, [] => s
  | s, e :: rest => applyEvents t (streamReducer s (StreamAction.event t e)) rest

/-- The thread-map entry observed for a thread, defaulting to the entry
an implicit initialization would create. -/
def threadEntryAt (s : StreamState) (t : String) : ThreadEntry :=
  (alookup t s.threadMap).getD (defaultEntry t)

/-- The message with id `m` observed in thread `t`. -/
def getMessage (s : StreamState) (t m : String) : Option Message :=
  findMsg m (threadEntryAt s t).thread.messages

/-- A finalized tool call: real identifier, tool name, and the
accumulated argument text (spec section 3). -/
structure ToolCall where
  id : String
  toolName : String
  arguments : String
deriving DecidableEq, Repr

/-- A pending (not yet finalized) tool call: tool name known from the
start event and the growing argument buffer (spec section 3). -/
structure PendingToolCall where
  toolName : String
  buffer : String
deriving DecidableEq, Repr

/-- Modelled from the spec: the state of the Tool Call Tracker (spec
sections 3 and 4.2; the implementation file tool-call-tracker.ts is not
in the corpus). At most one call is open (receiving deltas) at a time;
finalized calls are retrievable by their real id; cleared ids are
remembered so that a call id, once cleared, is never reused within the
same tracker instance. -/
structure ToolCallTracker where
  openCall : Option PendingToolCall
  finalized : List ToolCall
  cleared : List String
deriving DecidableEq, Repr

/-- A fresh tracker, one instance per run execution. -/
def ToolCallTracker.init : ToolCallTracker :=
  { openCall := none, finalized := [], cleared := [] }

/-- Modelled from the spec: `handleEvent` of the Tool Call Tracker (spec
section 4.2). tool-input-start opens a new pending call; tool-input-delta
appends to the open call's argument buffer; tool-call (finalize) assigns
the real call id and freezes the argument buffer as the call's final
arguments (falling back to the event's own arguments when no call is
open), ignoring an id that was already cleared so a cleared id is never
reused; every other event leaves the tracker unchanged. -/
def ToolCallTracker.handleEvent (tr : ToolCallTracker) (e : Event) : ToolCallTracker :=
  match e with
  | .toolInputStart name =>
    { tr with openCall := some { toolName := name, buffer := "" } }
  | .toolInputDelta d =>
    match tr.openCall with
    | some p => { tr with openCall := some { p with buffer := p.buffer ++ d } }
    | none => tr
  | .toolCall cid name args =>
    if cid ∈ tr.cleared then tr
    else
      match tr.openCall with
      | some p =>
        { tr with
          openCall := none
          finalized := tr.finalized ++ [{ id := cid, toolName := p.toolName, arguments := p.buffer }] }
      | none =>
        { tr with
          finalized := tr.finalized ++ [{ id := cid, toolName := name, arguments := args }] }
  | _ => tr

/-- Modelled from the spec: `getToolCallsById` returns the finalized
calls matching the given identifiers, silently omitting ids that were
never finalized (spec sections 4.2 and the design note in section 9). -/
def ToolCallTracker.getToolCallsById (tr : ToolCallTracker) (ids : List String) : List ToolCall :=
  tr.finalized.filter fun c => c.id ∈ ids

/-- Modelled from the spec: `clearToolCalls` removes entries after
execution to bound memory and prevent re-execution of the same call in
a later round (spec section 4.2). -/
def ToolCallTracker.clearToolCalls (tr : ToolCallTracker) (ids : List String) : ToolCallTracker :=
  { tr with
    finalized := tr.finalized.filter fun c => c.id ∉ ids
    cleared := tr.cleared ++ ids }

/-- Apply a list of events to the tracker in arrival order. -/
def ToolCallTracker.handleEvents : ToolCallTracker → List Event → ToolCallTracker
  | tr, [] => tr
  | tr, e :: rest => ToolCallTracker.handleEvents (tr.handleEvent e) rest

/-- A structured tool-result payload: the call id it answers, whether it
represents a failure, and its textual content (spec section 4.4). -/
structure ToolResult where
  toolCallId : String
  isError : Bool
  content : String
deriving DecidableEq, Repr

/-- A registry of callable client-side tools: tool name to an invocable
function from parsed arguments to a success value or a thrown failure
(spec section 6; failures of the invocable are modelled as
`Except.error`). -/
def ToolRegistry : Type :=
  List (String × (String → Except String String))

/-- Modelled from the spec: execution of one tool call (spec section
4.4). A tool absent from the registry, arguments that fail to parse, or
an invocation that throws each produce an error-result payload carrying
the call id and a textual error; a successful invocation produces its
result keyed by the same call id. The argument parse is passed
explicitly. -/
def execOne (registry : ToolRegistry) (parse : String → Except String String)
    (c : ToolCall) : ToolResult :=
  match alookup c.toolName registry with
  | none =>
    { toolCallId := c.id, isError := true, content := "Unknown tool: " ++ c.toolName }
  | some f =>
    match parse c.arguments with
    | .error e =>
      { toolCallId := c.id, isError := true, content := "Invalid tool arguments: " ++ e }
    | .ok a =>
      match f a with
      | .error e => { toolCallId := c.id, isError := true, content := e }
      | .ok v => { toolCallId := c.id, isError := false, content := v }

/-- Modelled from the spec: `executeAllPendingTools` runs every pending
call against the registry and returns one structured result per call,
preserving the association back to each call's id; per-call failures are
folded into error-results instead of propagating (spec section 4.4; the
implementation file tool-executor.ts is not in the corpus). -/
def executeAllPendingTools (toolCalls : List ToolCall) (registry : ToolRegistry)
    (parse : String → Except String String) : List ToolResult :=
  toolCalls.map (execOne registry parse)

/-- A continuation run request as issued by `executeToolsAndContinue`
in src/unnamed/part_005: thread id, the tool results sent as the user
message content, and the prior run id sent as `previousRunId`. -/
structure RunRequest where
  threadId : String
  content : List ToolResult
  previousRunId : String
deriving DecidableEq, Repr

/-- Embedded from src/unnamed/part_005 (`executeToolsAndContinue`): look
up the pending calls named by the awaiting-input event, execute them,
clear the executed calls from the tracker, and build the continuation
run request carrying the tool results and the prior run id. Returns the
issued request together with the updated tracker; the continuation
stream itself is supplied by the environment. -/
def executeToolsAndContinue (pendingToolCallIds : List String)
    (toolTracker : ToolCallTracker) (registry : ToolRegistry)
    (parse : String → Except String String) (threadId runId : String) :
    RunRequest × ToolCallTracker :=
  let toolCallsToExecute := toolTracker.getToolCallsById pendingToolCallIds
  let toolResults := executeAllPendingTools toolCallsToExecute registry parse
  let tracker2 := toolTracker.clearToolCalls pendingToolCallIds
  ({ threadId := threadId, content := toolResults, previousRunId := runId }, tracker2)

/-- An event stream as delivered by the transport: the events yielded in
order, then an optional terminal transport failure raised after the last
yielded event. -/
structure EventStream where
  events : List Event
  terminalError : Option String
deriving DecidableEq, Repr

/-- The environment of one `useTamboV1SendMessage` mutation: the thread
id passed to the hook (none means a new thread is created), the stream
returned by `createRunStream`, the outcome of each successive
continuation request (`client.threads.runs.run`), the tool registry and
the argument parse. -/
structure RunEnv where
  initialThreadId : Option String
  initialStream : EventStream
  continuations : List (Except String EventStream)
  registry : ToolRegistry
  parse : String → Except String String

/-- The mutable state of the orchestrator loop in src/unnamed/part_005:
`actualThreadId`, `runId`, the tool tracker, plus the observable trace
(events dispatched to the stream reducer with the thread id used,
number of awaiting-input events observed, continuation requests
issued). -/
structure LoopState where
  actualThreadId : Option String
  runId : Option String
  tracker : ToolCallTracker
  dispatched : List (String × Event)
  awaitingCount : Nat
  requests : List RunRequest
deriving Repr

/-- Outcome of processing one event stream: ran to completion, broke on
an awaiting-input event, or failed (a thrown error). -/
inductive StreamOutcome where
  | finished
  | awaiting (ids : List String)
  | failed (msg : String)
deriving Repr

/-- Outcome of one step of the inner event loop. -/
inductive StepResult where
  | next (st : LoopState)
  | awaiting (st : LoopState) (ids : List String)
  | fail (msg : String)
deriving Repr

/-- The per-event body of the inner `for await` loop of
src/unnamed/part_005 after the thread id is resolved: feed the event to
the tracker, dispatch it to the reducer under the resolved thread id,
and break out when the event is the awaiting-input custom signal. -/
def afterResolve (st : LoopState) (tid : String) (e : Event) : StepResult :=
  let st2 :=
    { st with
      tracker := st.tracker.handleEvent e
      dispatched := st.dispatched ++ [(tid, e)] }
  match e with
  | .awaitingInput ids =>
    .awaiting { st2 with awaitingCount := st2.awaitingCount + 1 } ids
  | _ => .next st2

/-- Embedded from src/unnamed/part_005 (the inner loop body of
`useTamboV1SendMessage`): a RUN_STARTED event records the run id and
fills `actualThreadId` when still unknown; any other event while
`actualThreadId` is unknown throws the protocol error; otherwise the
event is fed to the tracker and dispatched. -/
def stepEvent (st : LoopState) (e : Event) : StepResult :=
  match e, st.actualThreadId with
  | .runStarted rid etid, prev =>
    let tid := prev.getD etid
    afterResolve { st with runId := some rid, actualThreadId := some tid } tid e
  | _, some tid => afterResolve st tid e
  | _, none =>
    .fail ("Expected first event to be RUN_STARTED with threadId, got: " ++ e.typeName)

/-- Process the events of the current stream until completion, an
awaiting-input break, or a thrown error. -/
def processEvents : LoopState → List Event → LoopState × StreamOutcome
  | st, [] => (st, .finished)
  | st, e :: rest =>
    match stepEvent st e with
    | .next st' => processEvents st' rest
    | .awaiting st' ids => (st', .awaiting ids)
    | .fail msg => (st, .failed msg)

/-- Process one event stream: its events, then the terminal transport
failure if the stream ends with one. -/
def processStream (st : LoopState) (s : EventStream) : LoopState × StreamOutcome :=
  match processEvents st s.events with
  | (st', .finished) =>
    match s.terminalError with
    | some msg => (st', .failed msg)
    | none => (st', .finished)
  | r => r

/-- Outcome of one iteration of the outer `while (true)` loop: the run
halted with a result, or tool execution happened and the loop must
continue on the continuation stream. -/
inductive RoundOutcome where
  | halt (res : Except String (Option String))
  | more
deriving Repr

/-- Embedded from src/unnamed/part_005 (one iteration of the
`while (true)` loop of `useTamboV1SendMessage`): process the current
stream; when it finishes without an awaiting-input event the run is
done and returns the thread id; a thrown failure halts with that error;
on an awaiting-input break, check that the run id and thread id are
known (throwing when not), execute the pending tools and issue the
continuation request, after which the loop continues on the
continuation stream. -/
def runRound (registry : ToolRegistry) (parse : String → Except String String)
    (st : LoopState) (stream : EventStream) : LoopState × RoundOutcome :=
  match processStream st stream with
  | (st', .finished) => (st', .halt (.ok st'.actualThreadId))
  | (st', .failed msg) => (st', .halt (.error msg))
  | (st', .awaiting ids) =>
    match st'.runId, st'.actualThreadId with
    | some rid, some tid =>
      let p := executeToolsAndContinue ids st'.tracker registry parse tid rid
      ({ st' with tracker := p.2, requests := st'.requests ++ [p.1] }, .more)
    | _, _ =>
      (st', .halt (.error "Cannot continue run after awaiting_input: missing runId or threadId"))

/-- Embedded from src/unnamed/part_005 (the `while (true)` loop of
`useTamboV1SendMessage`): iterate rounds, replacing the current stream
with the continuation stream supplied by the environment after each
tool-execution round. The environment supplies one outcome per
continuation request; a failed continuation call (or running out of
supplied continuation outcomes) is a thrown failure of that request. -/
def runLoop (registry : ToolRegistry) (parse : String → Except String String) :
    List (Except String EventStream) → LoopState → EventStream →
    LoopState × Except String (Option String)
  | [], st, stream =>
    match runRound registry parse st stream with
    | (st', .halt res) => (st', res)
    | (st'', .more) => (st'', .error "Continuation request failed: no stream")
  | c :: cs, st, stream =>
    match runRound registry parse st stream with
    | (st', .halt res) => (st', res)
    | (st'', .more) =>
      match c with
      | .error msg => (st'', .error msg)
      | .ok s' => runLoop registry parse cs st'' s'

/-- The fresh loop state at the start of a mutation: thread id from the
hook argument, no run id, a fresh tracker, nothing dispatched. -/
def initialLoopState (env : RunEnv) : LoopState :=
  { actualThreadId := env.initialThreadId, runId := none,
    tracker := ToolCallTracker.init, dispatched := [], awaitingCount := 0,
    requests := [] }

/-- The body of the mutation (the `try` block of src/unnamed/part_005):
run the outer loop from the fresh state on the initial stream. -/
def runMutationBody (env : RunEnv) : LoopState × Except String (Option String) :=
  runLoop env.registry env.parse env.continuations (initialLoopState env) env.initialStream

/-- The observable trace of one mutation: its result (the returned
thread id, or the re-thrown failure), every action dispatched to the
stream reducer, the final thread id, the number of awaiting-input
events observed, and the continuation requests issued. -/
structure OrchTrace where
  result : Except String (Option String)
  dispatched : List (String × Event)
  finalThreadId : Option String
  awaitingCount : Nat
  requests : List RunRequest
deriving Repr

/-- Embedded from src/unnamed/part_005 (`useTamboV1SendMessage`'s
mutation function with its catch block): run the body; on a failure,
when a thread id was learned, dispatch a synthetic RUN_ERROR event for
that thread to clean up thread state, then re-throw the same failure. -/
def runMutation (env : RunEnv) : OrchTrace :=
  match runMutationBody env with
  | (st, .ok tid) =>
    { result := .ok tid, dispatched := st.dispatched,
      finalThreadId := st.actualThreadId, awaitingCount := st.awaitingCount,
      requests := st.requests }
  | (st, .error e) =>
    match st.actualThreadId with
    | some tid =>
      { result := .error e,
        dispatched := st.dispatched ++ [(tid, Event.runError e)],
        finalThreadId := st.actualThreadId, awaitingCount := st.awaitingCount,
        requests := st.requests }
    | none =>
      { result := .error e, dispatched := st.dispatched,
        finalThreadId := st.actualThreadId, awaitingCount := st.awaitingCount,
        requests := st.requests }

theorem alookup_amap_self {α : Type} (k : String) (f : α → α) (l : List (String × α)) :
    alookup k (amap k f l) = (alookup k l).map f := by
  induction l with
  | nil => rfl
  | cons p rest ih =>
    obtain ⟨k', v⟩ := p
    by_cases h : k' = k <;> simp [amap, alookup, h, ih]

theorem alookup_append_self {α : Type} (k : String) (v : α) (l : List (String × α))
    (h : alookup k l = none) : alookup k (l ++ [(k, v)]) = some v := by
  induction l with
  | nil => simp [alookup]
  | cons p rest ih =>
    obtain ⟨k', v'⟩ := p
    by_cases hk : k' = k
    · simp [alookup, hk] at h
    · simp only [List.cons_append, alookup, if_neg hk] at h ⊢
      exact ih h

theorem lookup_event_some (s : StreamState) (t : String) (e : Event) (en : ThreadEntry)
    (h : alookup t s.threadMap = some en) :
    alookup t (streamReducer s (StreamAction.event t e)).threadMap
      = some (applyEventToEntry e en) := by
  simp [streamReducer, h, alookup_amap_self]

theorem lookup_event_none (s : StreamState) (t : String) (e : Event)
    (h : alookup t s.threadMap = none) :
    alookup t (streamReducer s (StreamAction.event t e)).threadMap
      = some (applyEventToEntry e (defaultEntry t)) := by
  simp only [streamReducer, h]
  exact alookup_append_self t _ _ h

theorem threadEntryAt_event (s : StreamState) (t : String) (e : Event) :
    threadEntryAt (streamReducer s (StreamAction.event t e)) t
      = applyEventToEntry e (threadEntryAt s t) := by
  cases h : alookup t s.threadMap with
  | some en => simp [threadEntryAt, lookup_event_some s t e en h, h]
  | none => simp [threadEntryAt, lookup_event_none s t e h, h]

/-- C8: for every state containing an initialized thread `t1`,
dispatching an EVENT action carrying a RUN_STARTED event with run id
`r1` and thread id `t1` yields a state in which thread `t1` has thread
status `streaming`, streaming status `streaming`, and streaming run id
`r1`. -/
theorem c8_run_started_sets_streaming (s : StreamState) (t1 r1 : String)
    (en : ThreadEntry) (h : alookup t1 s.threadMap = some en) :
    ∃ en',
      alookup t1 (streamReducer s (StreamAction.event t1 (Event.runStarted r1 t1))).threadMap
          = some en'
        ∧ en'.thread.status = ThreadStatus.streaming
        ∧ en'.streaming.status = StreamingStatus.streaming
        ∧ en'.streaming.runId = some r1 :=
  ⟨_, lookup_event_some s t1 _ en h, rfl, rfl, rfl⟩

/-- Concrete instance of C8: after INIT_THREAD of thread t1 in the
empty state, dispatching RUN_STARTED with run id r1 marks the thread
and its streaming state as streaming and records the run id. -/
theorem c8_run_started_sets_streaming_witness :
    ∃ en',
      alookup "t1"
          (streamReducer
            (streamReducer { threadMap := [], currentThreadId := none }
              (StreamAction.initThread "t1" none))
            (StreamAction.event "t1" (Event.runStarted "r1" "t1"))).threadMap
          = some en'
        ∧ en'.thread.status = ThreadStatus.streaming
        ∧ en'.streaming.status = StreamingStatus.streaming
        ∧ en'.streaming.runId = some "r1" :=
  c8_run_started_sets_streaming _ "t1" "r1" (initEntry "t1" none) (by decide)

/-- C9: dispatching INIT_THREAD twice with the same thread id and no
initial-thread overrides yields the same state as dispatching it once
(the modelled reducer treats INIT_THREAD of a present thread as a
no-op). -/
theorem c9_init_thread_idempotent (s : StreamState) (t : String) :
    streamReducer (streamReducer s (StreamAction.initThread t none))
        (StreamAction.initThread t none)
      = streamReducer s (StreamAction.initThread t none) := by
  cases h : alookup t s.threadMap with
  | some en => simp [streamReducer, h]
  | none => simp [streamReducer, h, alookup_append_self t _ _ h]

/-- The delta contributed by an event to message `m`, if any. -/
def deltaOf (m : String) : Event → Option String
  | .textMessageContent mid d => if mid = m then some d else none
  | _ => none

/-- The ordered content deltas for message `m` in an event list. -/
def deltasFor (m : String) (evs : List Event) : List String :=
  evs.filterMap (deltaOf m)

/-- Ordered concatenation of a list of strings. -/
def strJoin : List String → String
  | [] => ""
  | x :: rest => x ++ strJoin rest

/-- Whether an event refers to message `m` (start, content delta or end
for that id). -/
def touchesMessage (m : String) : Event → Bool
  | .textMessageStart mid _ => decide (mid = m)
  | .textMessageContent mid _ => decide (mid = m)
  | .textMessageEnd mid => decide (mid = m)
  | _ => false

theorem deltaOf_eq_none (m : String) (e : Event) (h : touchesMessage m e = false) :
    deltaOf m e = none := by
  cases e <;> simp_all [touchesMessage, deltaOf]

theorem findMsg_id (m : String) (l : List Message) (x : Message)
    (h : findMsg m l = some x) : x.id = m := by
  induction l with
  | nil => exact absurd h (by simp [findMsg])
  | cons msg rest ih =>
    rw [findMsg] at h
    by_cases hm : msg.id = m
    · rw [if_pos hm] at h
      cases h
      exact hm
    · rw [if_neg hm] at h
      exact ih h

theorem findMsg_map (m : String) (g : Message → Message)
    (hg : ∀ msg, (g msg).id = msg.id) (l : List Message) :
    findMsg m (l.map g) = (findMsg m l).map g := by
  induction l with
  | nil => rfl
  | cons msg rest ih =>
    rw [List.map_cons, findMsg, findMsg, hg msg]
    by_cases hm : msg.id = m
    · rw [if_pos hm, if_pos hm, Option.map_some']
    · rw [if_neg hm, if_neg hm]
      exact ih

theorem findMsg_append_none (m : String) (l l2 : List Message)
    (h : findMsg m l = none) : findMsg m (l ++ l2) = findMsg m l2 := by
  induction l with
  | nil => rfl
  | cons msg rest ih =>
    rw [findMsg] at h
    rw [List.cons_append, findMsg]
    by_cases hm : msg.id = m
    · rw [if_pos hm] at h
      cases h
    · rw [if_neg hm] at h
      rw [if_neg hm]
      exact ih h

theorem findMsg_append_some (m : String) (l l2 : List Message) (x : Message)
    (h : findMsg m l = some x) : findMsg m (l ++ l2) = some x := by
  induction l with
  | nil => exact absurd h (by simp [findMsg])
  | cons msg rest ih =>
    rw [findMsg] at h
    rw [List.cons_append, findMsg]
    by_cases hm : msg.id = m
    · rw [if_pos hm] at h ⊢
      exact h
    · rw [if_neg hm] at h ⊢
      exact ih h

theorem findMsg_applyEvent_untouched (m : String) (e : Event) (en : ThreadEntry)
    (h : touchesMessage m e = false) :
    findMsg m (applyEventToEntry e en).thread.messages
      = findMsg m en.thread.messages := by
  cases e with
  | textMessageStart mid role =>
    simp only [touchesMessage, decide_eq_false_iff_not] at h
    simp only [applyEventToEntry]
    cases hf : findMsg m en.thread.messages with
    | some x => exact findMsg_append_some m _ _ x hf
    | none =>
      rw [findMsg_append_none m _ _ hf]
      simp [findMsg, h]
  | textMessageContent mid d =>
    simp only [touchesMessage, decide_eq_false_iff_not] at h
    simp only [applyEventToEntry]
    rw [findMsg_map m _ (fun msg => by split <;> rfl)]
    cases hf : findMsg m en.thread.messages with
    | none => rfl
    | some x =>
      have hid := findMsg_id m _ x hf
      rw [Option.map_some']
      rw [if_neg]
      rintro ⟨h1, _⟩
      exact h (by rw [← h1, hid])
  | textMessageEnd mid =>
    simp only [touchesMessage, decide_eq_false_iff_not] at h
    simp only [applyEventToEntry]
    rw [findMsg_map m _ (fun msg => by split <;> rfl)]
    cases hf : findMsg m en.thread.messages with
    | none => rfl
    | some x =>
      have hid := findMsg_id m _ x hf
      rw [Option.map_some']
      rw [if_neg]
      intro h1
      exact h (by rw [← h1, hid])
  | runStarted rid tid => rfl
  | toolInputStart name => rfl
  | toolInputDelta d => rfl
  | toolCall cid name args => rfl
  | runError msg => rfl
  | runFinished => rfl
  | awaitingInput ids => rfl
  | unknown tag => rfl

theorem findMsg_applyEvent_start (m : String) (r : Role) (en : ThreadEntry)
    (hf : findMsg m en.thread.messages = none) :
    findMsg m (applyEventToEntry (Event.textMessageStart m r) en).thread.messages
      = some { id := m, role := r, content := "", complete := false } := by
  simp only [applyEventToEntry]
  rw [findMsg_append_none m _ _ hf]
  simp [findMsg]

theorem findMsg_applyEvent_delta (m d : String) (en : ThreadEntry) (x : Message)
    (hf : findMsg m en.thread.messages = some x) (hc : x.complete = false) :
    findMsg m (applyEventToEntry (Event.textMessageContent m d) en).thread.messages
      = some { x with content := x.content ++ d } := by
  simp only [applyEventToEntry]
  rw [findMsg_map m _ (fun msg => by split <;> rfl), hf, Option.map_some']
  rw [if_pos ⟨findMsg_id m _ x hf, hc⟩]

theorem findMsg_applyEvent_end (m : String) (en : ThreadEntry) (x : Message)
    (hf : findMsg m en.thread.messages = some x) :
    findMsg m (applyEventToEntry (Event.textMessageEnd m) en).thread.messages
      = some { x with complete := true } := by
  simp only [applyEventToEntry]
  rw [findMsg_map m _ (fun msg => by split <;> rfl), hf, Option.map_some']
  rw [if_pos (findMsg_id m _ x hf)]

theorem getMessage_event (s : StreamState) (t m : String) (e : Event) :
    getMessage (streamReducer s (StreamAction.event t e)) t m
      = findMsg m (applyEventToEntry e (threadEntryAt s t)).thread.messages := by
  unfold getMessage
  rw [threadEntryAt_event]

theorem applyEvents_append (t : String) (l1 l2 : List Event) :
    ∀ s, applyEvents t s (l1 ++ l2) = applyEvents t (applyEvents t s l1) l2 := by
  induction l1 with
  | nil => intro s; rfl
  | cons e rest ih =>
    intro s
    simp only [List.cons_append, applyEvents]
    exact ih _

theorem getMessage_applyEvents_untouched (t m : String) (evs : List Event) :
    ∀ s : StreamState, (∀ e ∈ evs, touchesMessage m e = false) →
      getMessage (applyEvents t s evs) t m = getMessage s t m := by
  induction evs with
  | nil => intro s _; rfl
  | cons e rest ih =>
    intro s h
    simp only [applyEvents]
    rw [ih _ fun e' he' => h e' (List.mem_cons_of_mem e he')]
    rw [getMessage_event]
    exact findMsg_applyEvent_untouched m e _ (h e (List.mem_cons_self e rest))

theorem getMessage_applyEvents_deltas (t m : String) (evs : List Event) :
    ∀ (s : StreamState) (x : Message),
      (∀ e ∈ evs, touchesMessage m e = false ∨ ∃ d, e = Event.textMessageContent m d) →
      getMessage s t m = some x → x.complete = false →
      getMessage (applyEvents t s evs) t m
        = some { x with content := x.content ++ strJoin (deltasFor m evs) } := by
  induction evs with
  | nil =>
    intro s x _ hx _
    show getMessage s t m = _
    rw [hx]
    simp [deltasFor, strJoin, String.append_empty]
  | cons e rest ih =>
    intro s x h hx hc
    simp only [applyEvents]
    rcases h e (List.mem_cons_self e rest) with he | ⟨d, rfl⟩
    · have h1 : getMessage (streamReducer s (StreamAction.event t e)) t m = some x := by
        rw [getMessage_event]
        rw [findMsg_applyEvent_untouched m e _ he]
        exact hx
      rw [ih _ x (fun e' he' => h e' (List.mem_cons_of_mem e he')) h1 hc]
      have hd : deltaOf m e = none := deltaOf_eq_none m e he
      simp [deltasFor, List.filterMap_cons, hd]
    · have h1 : getMessage (streamReducer s (StreamAction.event t (Event.textMessageContent m d))) t m
          = some { x with content := x.content ++ d } := by
        rw [getMessage_event]
        exact findMsg_applyEvent_delta m d _ x hx hc
      rw [ih _ _ (fun e' he' => h e' (List.mem_cons_of_mem _ he')) h1 hc]
      simp [deltasFor, List.filterMap_cons, deltaOf, strJoin, String.append_assoc]

/-- C4: for every event sequence applied through the Accumulator that
contains a text-message-start for id `m`, any number of
text-message-content deltas for `m` between its start and end events
(interleaved with events not referring to `m`), and a text-message-end
for `m`, followed by further events not referring to `m`, the final
text content of message `m` equals the ordered concatenation of all its
deltas between its start and end events, and the message is marked
complete. -/
theorem c4_message_text_is_delta_concatenation
    (s : StreamState) (t m : String) (r : Role) (pre mids post : List Event)
    (hpre : ∀ e ∈ pre, touchesMessage m e = false)
    (hmid : ∀ e ∈ mids, touchesMessage m e = false ∨ ∃ d, e = Event.textMessageContent m d)
    (hpost : ∀ e ∈ post, touchesMessage m e = false)
    (hnone : getMessage s t m = none) :
    getMessage
        (applyEvents t s
          (pre ++ Event.textMessageStart m r :: (mids ++ Event.textMessageEnd m :: post)))
        t m
      = some { id := m, role := r, content := strJoin (deltasFor m mids), complete := true } := by
  rw [applyEvents_append]
  have h1 : getMessage (applyEvents t s pre) t m = none := by
    rw [getMessage_applyEvents_untouched t m pre s hpre]
    exact hnone
  simp only [applyEvents]
  have h2 : getMessage
      (streamReducer (applyEvents t s pre) (StreamAction.event t (Event.textMessageStart m r))) t m
      = some { id := m, role := r, content := "", complete := false } := by
    rw [getMessage_event]
    exact findMsg_applyEvent_start m r _ h1
  rw [applyEvents_append]
  have h3 := getMessage_applyEvents_deltas t m mids _ _ hmid h2 rfl
  simp only [applyEvents]
  have h4 : getMessage
      (streamReducer
        (applyEvents t
          (streamReducer (applyEvents t s pre) (StreamAction.event t (Event.textMessageStart m r)))
          mids)
        (StreamAction.event t (Event.textMessageEnd m))) t m
      = some { id := m, role := r, content := "" ++ strJoin (deltasFor m mids), complete := true } := by
    rw [getMessage_event]
    exact findMsg_applyEvent_end m _ _ h3
  rw [getMessage_applyEvents_untouched t m post _ hpost, h4, String.empty_append]

/-- Concrete instance of C4 (spec Scenario B): deltas "Hel" and "lo"
for message m1 concatenate to "Hello" and the message ends complete. -/
theorem c4_message_text_is_delta_concatenation_witness :
    getMessage
        (applyEvents "t1"
          (streamReducer { threadMap := [], currentThreadId := none }
            (StreamAction.initThread "t1" none))
          [Event.textMessageStart "m1" Role.assistant,
           Event.textMessageContent "m1" "Hel", Event.textMessageContent "m1" "lo",
           Event.textMessageEnd "m1"])
        "t1" "m1"
      = some { id := "m1", role := Role.assistant, content := "Hello", complete := true } := by
  have h := c4_message_text_is_delta_concatenation
    (streamReducer { threadMap := [], currentThreadId := none }
      (StreamAction.initThread "t1" none))
    "t1" "m1" Role.assistant []
    [Event.textMessageContent "m1" "Hel", Event.textMessageContent "m1" "lo"] []
    (by intro e he; cases he)
    (by
      intro e he
      simp only [List.mem_cons, List.not_mem_nil, or_false] at he
      rcases he with rfl | rfl
      · exact Or.inr ⟨"Hel", rfl⟩
      · exact Or.inr ⟨"lo", rfl⟩)
    (by intro e he; cases he)
    (by decide)
  exact h.trans (by decide)

theorem handleEvents_append (l1 l2 : List Event) :
    ∀ tr : ToolCallTracker,
      ToolCallTracker.handleEvents tr (l1 ++ l2)
        = ToolCallTracker.handleEvents (ToolCallTracker.handleEvents tr l1) l2 := by
  induction l1 with
  | nil => intro tr; rfl
  | cons e rest ih =>
    intro tr
    simp only [List.cons_append, ToolCallTracker.handleEvents]
    exact ih _

theorem handleEvents_deltas (frags : List String) :
    ∀ (tr : ToolCallTracker) (p : PendingToolCall), tr.openCall = some p →
      ToolCallTracker.handleEvents tr (frags.map Event.toolInputDelta)
        = { tr with openCall := some { p with buffer := p.buffer ++ strJoin frags } } := by
  induction frags with
  | nil =>
    intro tr p hp
    obtain ⟨o, fin, cl⟩ := tr
    cases hp
    simp [ToolCallTracker.handleEvents, strJoin, String.append_empty]
  | cons d rest ih =>
    intro tr p hp
    simp only [List.map_cons, ToolCallTracker.handleEvents, ToolCallTracker.handleEvent, hp]
    rw [ih _ { p with buffer := p.buffer ++ d } rfl]
    simp [strJoin, String.append_assoc]

/-- C5: for every tracker state in which real id `c` is neither already
finalized nor cleared, receiving a tool-input-start, then any number of
tool-input-delta fragments, then a finalize tool-call event assigning
real id `c`, makes `getToolCallsById` of the singleton id set return
exactly one call whose arguments equal the ordered concatenation of the
fragments (the tracker stores the raw argument text; the executor
JSON-parses it at invocation time). -/
theorem c5_tracker_round_trip (tr : ToolCallTracker) (name c eargs : String)
    (frags : List String) (hclr : c ∉ tr.cleared)
    (hfin : ∀ call ∈ tr.finalized, call.id ≠ c) :
    (tr.handleEvents
        (Event.toolInputStart name ::
          (frags.map Event.toolInputDelta ++ [Event.toolCall c name eargs]))).getToolCallsById [c]
      = [{ id := c, toolName := name, arguments := strJoin frags }] := by
  simp only [ToolCallTracker.handleEvents]
  have h1 : tr.handleEvent (Event.toolInputStart name)
      = { tr with openCall := some { toolName := name, buffer := "" } } := rfl
  rw [h1, handleEvents_append]
  rw [handleEvents_deltas frags _ { toolName := name, buffer := "" } rfl]
  simp only [ToolCallTracker.handleEvents, ToolCallTracker.handleEvent]
  rw [if_neg hclr]
  simp only [String.empty_append]
  unfold ToolCallTracker.getToolCallsById
  simp only [List.filter_append]
  rw [List.filter_eq_nil_iff.mpr]
  · simp
  · intro call hcall
    simp [hfin call hcall]

theorem handleEvent_cleared (tr : ToolCallTracker) (e : Event) :
    (tr.handleEvent e).cleared = tr.cleared := by
  cases e with
  | toolInputStart name => rfl
  | toolInputDelta d =>
    simp only [ToolCallTracker.handleEvent]
    cases tr.openCall <;> rfl
  | toolCall cid n a =>
    simp only [ToolCallTracker.handleEvent]
    by_cases h : cid ∈ tr.cleared
    · rw [if_pos h]
    · rw [if_neg h]
      cases tr.openCall <;> rfl
  | runStarted rid tid => rfl
  | textMessageStart mid role => rfl
  | textMessageContent mid d => rfl
  | textMessageEnd mid => rfl
  | runError msg => rfl
  | runFinished => rfl
  | awaitingInput ids => rfl
  | unknown tag => rfl

theorem handleEvent_preserves_ne (tr : ToolCallTracker) (e : Event) (c : String)
    (h1 : c ∈ tr.cleared) (h2 : ∀ call ∈ tr.finalized, call.id ≠ c) :
    ∀ call ∈ (tr.handleEvent e).finalized, call.id ≠ c := by
  cases e with
  | toolCall cid n a =>
    simp only [ToolCallTracker.handleEvent]
    by_cases hc : cid ∈ tr.cleared
    · rw [if_pos hc]
      exact h2
    · rw [if_neg hc]
      have hcid : cid ≠ c := fun hh => hc (hh ▸ h1)
      cases tr.openCall with
      | some p =>
        intro call hcall
        rcases List.mem_append.mp hcall with hl | hr
        · exact h2 call hl
        · rw [List.mem_singleton.mp hr]
          exact hcid
      | none =>
        intro call hcall
        rcases List.mem_append.mp hcall with hl | hr
        · exact h2 call hl
        · rw [List.mem_singleton.mp hr]
          exact hcid
  | toolInputDelta d =>
    simp only [ToolCallTracker.handleEvent]
    cases tr.openCall with
    | some p => exact h2
    | none => exact h2
  | toolInputStart name => exact h2
  | runStarted rid tid => exact h2
  | textMessageStart mid role => exact h2
  | textMessageContent mid d => exact h2
  | textMessageEnd mid => exact h2
  | runError msg => exact h2
  | runFinished => exact h2
  | awaitingInput ids => exact h2
  | unknown tag => exact h2

theorem handleEvents_cleared_invariant (evs : List Event) :
    ∀ (tr : ToolCallTracker) (c : String),
      c ∈ tr.cleared → (∀ call ∈ tr.finalized, call.id ≠ c) →
      c ∈ (ToolCallTracker.handleEvents tr evs).cleared
        ∧ ∀ call ∈ (ToolCallTracker.handleEvents tr evs).finalized, call.id ≠ c := by
  induction evs with
  | nil => exact fun tr c h1 h2 => ⟨h1, h2⟩
  | cons e rest ih =>
    intro tr c h1 h2
    simp only [ToolCallTracker.handleEvents]
    exact ih _ c (by rw [handleEvent_cleared]; exact h1)
      (handleEvent_preserves_ne tr e c h1 h2)

theorem getToolCallsById_eq_nil (tr : ToolCallTracker) (c : String)
    (h : ∀ call ∈ tr.finalized, call.id ≠ c) :
    tr.getToolCallsById [c] = [] := by
  unfold ToolCallTracker.getToolCallsById
  rw [List.filter_eq_nil_iff.mpr]
  intro call hcall
  simp [h call hcall]

/-- C7: in every tool-execution round, `executeToolsAndContinue`
retrieves and executes the pending calls from the pre-clear tracker,
returns the tracker with the awaiting-input ids cleared (so the issued
continuation request is built after clearing), and a call id once
cleared is never present in the tracker again, whatever events the same
tracker instance handles afterwards. -/
theorem c7_cleared_ids_never_return
    (ids : List String) (tr : ToolCallTracker) (registry : ToolRegistry)
    (parse : String → Except String String) (tid rid : String) :
    ((executeToolsAndContinue ids tr registry parse tid rid).1.content
        = executeAllPendingTools (tr.getToolCallsById ids) registry parse
      ∧ (executeToolsAndContinue ids tr registry parse tid rid).2
          = tr.clearToolCalls ids)
    ∧ ∀ c : String, c ∈ ids →
        ∀ evs : List Event,
          ((tr.clearToolCalls ids).handleEvents evs).getToolCallsById [c] = [] := by
  refine ⟨⟨rfl, rfl⟩, ?_⟩
  intro c hc evs
  have h1 : c ∈ (tr.clearToolCalls ids).cleared := by
    unfold ToolCallTracker.clearToolCalls
    exact List.mem_append.mpr (Or.inr hc)
  have h2 : ∀ call ∈ (tr.clearToolCalls ids).finalized, call.id ≠ c := by
    unfold ToolCallTracker.clearToolCalls
    intro call hcall hid
    have hmem := List.of_mem_filter hcall
    rw [hid] at hmem
    simp at hmem
    exact hmem hc
  obtain ⟨_, hfin⟩ := handleEvents_cleared_invariant evs _ c h1 h2
  exact getToolCallsById_eq_nil _ c hfin

/-- Concrete instance of C7 (and of spec Scenario C's clearing round):
after finalizing call-1 and running a round that clears it, the call is
gone and finalizing the same id again does not bring it back. -/
theorem c7_cleared_ids_never_return_witness :
    (((ToolCallTracker.init.handleEvents
          [Event.toolInputStart "get_weather", Event.toolInputDelta "\x7b\x7d",
           Event.toolCall "call-1" "get_weather" ""]).clearToolCalls
        ["call-1"]).handleEvents
        [Event.toolCall "call-1" "get_weather" "\x7b\x7d"]).getToolCallsById ["call-1"] = [] :=
  (c7_cleared_ids_never_return ["call-1"]
      (ToolCallTracker.init.handleEvents
        [Event.toolInputStart "get_weather", Event.toolInputDelta "\x7b\x7d",
         Event.toolCall "call-1" "get_weather" ""])
      [] (fun s => Except.ok s) "t1" "r1").2 "call-1" (by decide)
    [Event.toolCall "call-1" "get_weather" "\x7b\x7d"]

/-- Concrete instance of C5 (spec Scenario C): three streamed fragments
concatenate to the JSON argument text of the finalized call. -/
theorem c5_tracker_round_trip_witness :
    (ToolCallTracker.init.handleEvents
        (Event.toolInputStart "get_weather" ::
          (["\x7b\"loc", "ation\":", "\"NYC\"\x7d"].map Event.toolInputDelta
            ++ [Event.toolCall "call-1" "get_weather" ""]))).getToolCallsById ["call-1"]
      = [{ id := "call-1", toolName := "get_weather",
           arguments := "\x7b\"location\":\"NYC\"\x7d" }] := by
  have h := c5_tracker_round_trip ToolCallTracker.init "get_weather" "call-1" ""
    ["\x7b\"loc", "ation\":", "\"NYC\"\x7d"] (by decide) (by decide)
  simpa using h

theorem execOne_preserves_id (registry : ToolRegistry)
    (parse : String → Except String String) (c : ToolCall) :
    (execOne registry parse c).toolCallId = c.id := by
  rcases h : alookup c.toolName registry with _ | f
  · simp [execOne, h]
  · rcases hp : parse c.arguments with e | a
    · simp [execOne, h, hp]
    · rcases hf : f a with e | v
      · simp [execOne, h, hp, hf]
      · simp [execOne, h, hp, hf]

/-- Environment of spec Scenario D: the model requests one pending call
of a registered tool whose invocation throws. -/
def scenDEnv : RunEnv :=
  { initialThreadId := none,
    initialStream :=
      { events :=
          [Event.runStarted "r1" "t1", Event.toolInputStart "boom",
           Event.toolInputDelta "\x7b\x7d", Event.toolCall "c1" "boom" "",
           Event.awaitingInput ["c1"]],
        terminalError := none },
    continuations := [Except.ok { events := [Event.runFinished], terminalError := none }],
    registry := [("boom", fun _ => Except.error "kaboom")],
    parse := fun s => Except.ok s }

/-- C6: the Tool Executor returns one result per pending call with the
call's id preserved; a requested tool absent from the registry,
arguments that fail to parse, or a tool invocation that throws each
yield an error-result payload (tool id plus textual error) in the
returned result set instead of propagating an exception; and (spec
Scenario D) a run whose only pending tool throws continues to a
successful completion carrying the error-result in its continuation
request, rather than terminating in error. -/
theorem c6_tool_failures_become_error_results
    (calls : List ToolCall) (registry : ToolRegistry)
    (parse : String → Except String String) :
    ((executeAllPendingTools calls registry parse).length = calls.length
      ∧ executeAllPendingTools calls registry parse = calls.map (execOne registry parse)
      ∧ ∀ c : ToolCall, (execOne registry parse c).toolCallId = c.id)
    ∧ (∀ c : ToolCall, alookup c.toolName registry = none →
        (execOne registry parse c).isError = true
          ∧ (execOne registry parse c).content = "Unknown tool: " ++ c.toolName)
    ∧ (∀ (c : ToolCall) (e : String), parse c.arguments = Except.error e →
        (execOne registry parse c).isError = true)
    ∧ (∀ (c : ToolCall) (f : String → Except String String) (a e : String),
        alookup c.toolName registry = some f → parse c.arguments = Except.ok a →
        f a = Except.error e →
        (execOne registry parse c).isError = true
          ∧ (execOne registry parse c).content = e)
    ∧ ((runMutation scenDEnv).result = Except.ok (some "t1")
        ∧ (runMutation scenDEnv).requests
            = [{ threadId := "t1",
                 content := [{ toolCallId := "c1", isError := true, content := "kaboom" }],
                 previousRunId := "r1" }]) := by
  refine ⟨⟨by simp [executeAllPendingTools], rfl, execOne_preserves_id registry parse⟩,
    ?_, ?_, ?_, by constructor <;> rfl⟩
  · intro c h
    constructor <;> simp [execOne, h]
  · intro c e hp
    rcases h : alookup c.toolName registry with _ | f
    · simp [execOne, h]
    · simp [execOne, h, hp]
  · intro c f a e h hp hf
    constructor <;> simp [execOne, h, hp, hf]

/-- Concrete instance of C6: an unknown tool and a throwing tool both
produce error-results rather than exceptions. -/
theorem c6_tool_failures_become_error_results_witness :
    (execOne [("boom", fun _ => Except.error "kaboom")] (fun s => Except.ok s)
        { id := "c1", toolName := "missing", arguments := "1" }).isError = true
      ∧ (execOne [("boom", fun _ => Except.error "kaboom")] (fun s => Except.ok s)
          { id := "c2", toolName := "boom", arguments := "2" }).isError = true :=
  ⟨((c6_tool_failures_become_error_results []
        [("boom", fun _ => Except.error "kaboom")] (fun s => Except.ok s)).2.1
      { id := "c1", toolName := "missing", arguments := "1" } rfl).1,
   ((c6_tool_failures_become_error_results []
        [("boom", fun _ => Except.error "kaboom")] (fun s => Except.ok s)).2.2.2.1
      { id := "c2", toolName := "boom", arguments := "2" }
      (fun _ => Except.error "kaboom") "2" "kaboom" rfl rfl rfl).1⟩

/-- The extra awaiting-input observation contributed by a stream
outcome. -/
def StreamOutcome.awaitingBump : StreamOutcome → Nat
  | .awaiting _ => 1
  | _ => 0

theorem processEvents_threadId_mono (evs : List Event) :
    ∀ (st : LoopState) (t : String), st.actualThreadId = some t →
      (processEvents st evs).1.actualThreadId = some t := by
  induction evs with
  | nil => intro st t h; exact h
  | cons e rest ih =>
    intro st t h
    cases e <;>
      simp only [processEvents, stepEvent, afterResolve, h, Option.getD_some] <;>
      exact ih _ t rfl

theorem processEvents_none_fixed (evs : List Event) :
    ∀ st : LoopState, st.actualThreadId = none →
      (processEvents st evs).1.actualThreadId = none →
      (processEvents st evs).1 = st := by
  induction evs with
  | nil => intro st _ _; rfl
  | cons e rest ih =>
    intro st h hfin
    cases e with
    | runStarted rid etid =>
      exfalso
      simp only [processEvents, stepEvent, afterResolve, h, Option.getD_none] at hfin
      rw [processEvents_threadId_mono rest _ etid rfl] at hfin
      cases hfin
    | textMessageStart mid role => simp [processEvents, stepEvent, h]
    | textMessageContent mid d => simp [processEvents, stepEvent, h]
    | textMessageEnd mid => simp [processEvents, stepEvent, h]
    | toolInputStart name => simp [processEvents, stepEvent, h]
    | toolInputDelta d => simp [processEvents, stepEvent, h]
    | toolCall cid n a => simp [processEvents, stepEvent, h]
    | runError msg => simp [processEvents, stepEvent, h]
    | runFinished => simp [processEvents, stepEvent, h]
    | awaitingInput ids => simp [processEvents, stepEvent, h]
    | unknown tag => simp [processEvents, stepEvent, h]

theorem processEvents_awaiting_some (evs : List Event) :
    ∀ (st st' : LoopState) (ids : List String),
      processEvents st evs = (st', .awaiting ids) →
      ∃ t, st'.actualThreadId = some t := by
  induction evs with
  | nil =>
    intro st st' ids h
    exact absurd (congrArg Prod.snd h) (by simp [processEvents])
  | cons e rest ih =>
    intro st st' ids h
    rcases hA : st.actualThreadId with _ | t
    · cases e with
      | runStarted rid etid =>
        simp only [processEvents, stepEvent, afterResolve, hA, Option.getD_none] at h
        refine ⟨etid, ?_⟩
        have h1 := congrArg Prod.fst h
        simp only at h1
        rw [← h1]
        exact processEvents_threadId_mono rest _ etid rfl
      | textMessageStart mid role => simp [processEvents, stepEvent, hA] at h
      | textMessageContent mid d => simp [processEvents, stepEvent, hA] at h
      | textMessageEnd mid => simp [processEvents, stepEvent, hA] at h
      | toolInputStart name => simp [processEvents, stepEvent, hA] at h
      | toolInputDelta d => simp [processEvents, stepEvent, hA] at h
      | toolCall cid n a => simp [processEvents, stepEvent, hA] at h
      | runError msg => simp [processEvents, stepEvent, hA] at h
      | runFinished => simp [processEvents, stepEvent, hA] at h
      | awaitingInput ids' => simp [processEvents, stepEvent, hA] at h
      | unknown tag => simp [processEvents, stepEvent, hA] at h
    · refine ⟨t, ?_⟩
      have hm : (processEvents st (e :: rest)).1.actualThreadId = some t :=
        processEvents_threadId_mono (e :: rest) st t hA
      rw [h] at hm
      exact hm

theorem processEvents_counts (evs : List Event) :
    ∀ st : LoopState,
      (processEvents st evs).1.requests = st.requests
      ∧ (processEvents st evs).1.awaitingCount
          = st.awaitingCount + ((processEvents st evs).2).awaitingBump := by
  induction evs with
  | nil => intro st; exact ⟨rfl, rfl⟩
  | cons e rest ih =>
    intro st
    rcases hA : st.actualThreadId with _ | t
    · cases e with
      | runStarted rid etid =>
        simp only [processEvents, stepEvent, afterResolve, hA, Option.getD_none]
        exact ih _
      | textMessageStart mid role => simp [processEvents, stepEvent, hA, StreamOutcome.awaitingBump]
      | textMessageContent mid d => simp [processEvents, stepEvent, hA, StreamOutcome.awaitingBump]
      | textMessageEnd mid => simp [processEvents, stepEvent, hA, StreamOutcome.awaitingBump]
      | toolInputStart name => simp [processEvents, stepEvent, hA, StreamOutcome.awaitingBump]
      | toolInputDelta d => simp [processEvents, stepEvent, hA, StreamOutcome.awaitingBump]
      | toolCall cid n a => simp [processEvents, stepEvent, hA, StreamOutcome.awaitingBump]
      | runError msg => simp [processEvents, stepEvent, hA, StreamOutcome.awaitingBump]
      | runFinished => simp [processEvents, stepEvent, hA, StreamOutcome.awaitingBump]
      | awaitingInput ids => simp [processEvents, stepEvent, hA, StreamOutcome.awaitingBump]
      | unknown tag => simp [processEvents, stepEvent, hA, StreamOutcome.awaitingBump]
    · cases e with
      | runStarted rid etid =>
        simp only [processEvents, stepEvent, afterResolve, hA, Option.getD_some]
        exact ih _
      | awaitingInput ids =>
        simp [processEvents, stepEvent, afterResolve, hA, StreamOutcome.awaitingBump]
      | textMessageStart mid role =>
        simp only [processEvents, stepEvent, afterResolve, hA]
        exact ih _
      | textMessageContent mid d =>
        simp only [processEvents, stepEvent, afterResolve, hA]
        exact ih _
      | textMessageEnd mid =>
        simp only [processEvents, stepEvent, afterResolve, hA]
        exact ih _
      | toolInputStart name =>
        simp only [processEvents, stepEvent, afterResolve, hA]
        exact ih _
      | toolInputDelta d =>
        simp only [processEvents, stepEvent, afterResolve, hA]
        exact ih _
      | toolCall cid n a =>
        simp only [processEvents, stepEvent, afterResolve, hA]
        exact ih _
      | runError msg =>
        simp only [processEvents, stepEvent, afterResolve, hA]
        exact ih _
      | runFinished =>
        simp only [processEvents, stepEvent, afterResolve, hA]
        exact ih _
      | unknown tag =>
        simp only [processEvents, stepEvent, afterResolve, hA]
        exact ih _

theorem processStream_fst (st : LoopState) (s : EventStream) :
    (processStream st s).1 = (processEvents st s.events).1 := by
  unfold processStream
  rcases hpe : processEvents st s.events with ⟨st', o⟩
  cases o with
  | finished => cases s.terminalError <;> rfl
  | awaiting ids => rfl
  | failed msg => rfl

theorem processStream_threadId_mono (st : LoopState) (s : EventStream) (t : String)
    (h : st.actualThreadId = some t) :
    (processStream st s).1.actualThreadId = some t := by
  rw [processStream_fst]
  exact processEvents_threadId_mono s.events st t h

theorem processStream_none_fixed (st : LoopState) (s : EventStream)
    (h : st.actualThreadId = none)
    (hfin : (processStream st s).1.actualThreadId = none) :
    (processStream st s).1 = st := by
  rw [processStream_fst] at hfin ⊢
  exact processEvents_none_fixed s.events st h hfin

theorem processStream_awaiting (st : LoopState) (s : EventStream) (st1 : LoopState)
    (ids : List String) (h : processStream st s = (st1, .awaiting ids)) :
    processEvents st s.events = (st1, .awaiting ids) := by
  unfold processStream at h
  rcases hpe : processEvents st s.events with ⟨st', o⟩
  rw [hpe] at h
  cases o with
  | finished =>
    have h2 :
        (match s.terminalError with
          | some msg => (st', StreamOutcome.failed msg)
          | none => (st', StreamOutcome.finished))
          = (st1, StreamOutcome.awaiting ids) := h
    rcases hT : s.terminalError with _ | msg <;> rw [hT] at h2 <;> simp at h2
  | awaiting ids' => exact h
  | failed msg => simp at h

theorem processStream_counts (st : LoopState) (s : EventStream) :
    (processStream st s).1.requests = st.requests
    ∧ (processStream st s).1.awaitingCount
        = st.awaitingCount + ((processStream st s).2).awaitingBump := by
  obtain ⟨h1, h2⟩ := processEvents_counts s.events st
  unfold processStream
  rcases hpe : processEvents st s.events with ⟨st', o⟩
  rw [hpe] at h1 h2
  cases o with
  | finished => cases s.terminalError <;> simp_all [StreamOutcome.awaitingBump]
  | awaiting ids => simp_all [StreamOutcome.awaitingBump]
  | failed msg => simp_all [StreamOutcome.awaitingBump]

/-- Case characterization of one round of the outer loop, in terms of
the outcome of processing the current stream. -/
theorem runRound_spec (registry : ToolRegistry)
    (parse : String → Except String String) (st : LoopState) (stream : EventStream) :
    (∃ st1, processStream st stream = (st1, .finished)
        ∧ runRound registry parse st stream = (st1, .halt (.ok st1.actualThreadId)))
    ∨ (∃ st1 msg, processStream st stream = (st1, .failed msg)
        ∧ runRound registry parse st stream = (st1, .halt (.error msg)))
    ∨ (∃ st1 ids rid tid,
        processStream st stream = (st1, .awaiting ids)
        ∧ st1.runId = some rid ∧ st1.actualThreadId = some tid
        ∧ runRound registry parse st stream
            = ({ st1 with
                  tracker := (executeToolsAndContinue ids st1.tracker registry parse tid rid).2,
                  requests :=
                    st1.requests ++ [(executeToolsAndContinue ids st1.tracker registry parse tid rid).1] },
               .more))
    ∨ (∃ st1 ids, processStream st stream = (st1, .awaiting ids)
        ∧ (st1.runId = none ∨ st1.actualThreadId = none)
        ∧ runRound registry parse st stream
            = (st1, .halt (.error "Cannot continue run after awaiting_input: missing runId or threadId"))) := by
  unfold runRound
  rcases hps : processStream st stream with ⟨st1, o⟩
  cases o with
  | finished => exact Or.inl ⟨st1, rfl, rfl⟩
  | failed msg => exact Or.inr (Or.inl ⟨st1, msg, rfl, rfl⟩)
  | awaiting ids =>
    rcases hR : st1.runId with _ | rid
    · refine Or.inr (Or.inr (Or.inr ⟨st1, ids, rfl, Or.inl hR, ?_⟩))
      rw [show (st1, StreamOutcome.awaiting ids) = (st1, StreamOutcome.awaiting ids) from rfl]
      show (match st1.runId, st1.actualThreadId with
        | some rid, some tid =>
          ({ st1 with
              tracker := (executeToolsAndContinue ids st1.tracker registry parse tid rid).2,
              requests :=
                st1.requests ++ [(executeToolsAndContinue ids st1.tracker registry parse tid rid).1] },
            RoundOutcome.more)
        | _, _ =>
          (st1, RoundOutcome.halt
            (Except.error "Cannot continue run after awaiting_input: missing runId or threadId")))
          = (st1, RoundOutcome.halt
              (Except.error "Cannot continue run after awaiting_input: missing runId or threadId"))
      rw [hR]
    · rcases hA : st1.actualThreadId with _ | tid
      · refine Or.inr (Or.inr (Or.inr ⟨st1, ids, rfl, Or.inr hA, ?_⟩))
        show (match st1.runId, st1.actualThreadId with
          | some rid, some tid =>
            ({ st1 with
                tracker := (executeToolsAndContinue ids st1.tracker registry parse tid rid).2,
                requests :=
                  st1.requests ++ [(executeToolsAndContinue ids st1.tracker registry parse tid rid).1] },
              RoundOutcome.more)
          | _, _ =>
            (st1, RoundOutcome.halt
              (Except.error "Cannot continue run after awaiting_input: missing runId or threadId")))
            = (st1, RoundOutcome.halt
                (Except.error "Cannot continue run after awaiting_input: missing runId or threadId"))
        rw [hR, hA]
      · refine Or.inr (Or.inr (Or.inl ⟨st1, ids, rid, tid, rfl, hR, hA, ?_⟩))
        show (match st1.runId, st1.actualThreadId with
          | some rid, some tid =>
            ({ st1 with
                tracker := (executeToolsAndContinue ids st1.tracker registry parse tid rid).2,
                requests :=
                  st1.requests ++ [(executeToolsAndContinue ids st1.tracker registry parse tid rid).1] },
              RoundOutcome.more)
          | _, _ =>
            (st1, RoundOutcome.halt
              (Except.error "Cannot continue run after awaiting_input: missing runId or threadId")))
            = ({ st1 with
                  tracker := (executeToolsAndContinue ids st1.tracker registry parse tid rid).2,
                  requests :=
                    st1.requests ++ [(executeToolsAndContinue ids st1.tracker registry parse tid rid).1] },
                RoundOutcome.more)
        rw [hR, hA]

theorem runRound_threadId_mono (registry : ToolRegistry)
    (parse : String → Except String String) (st : LoopState)
    (stream : EventStream) (t : String) (h : st.actualThreadId = some t) :
    (runRound registry parse st stream).1.actualThreadId = some t := by
  have hm := processStream_threadId_mono st stream t h
  rcases runRound_spec registry parse st stream with
    ⟨st1, hps, hr⟩ | ⟨st1, msg, hps, hr⟩ | ⟨st1, ids, rid, tid, hps, hR, hA, hr⟩ |
    ⟨st1, ids, hps, hmiss, hr⟩ <;> rw [hps] at hm <;> rw [hr] <;> exact hm

theorem runRound_more_some (registry : ToolRegistry)
    (parse : String → Except String String) (st : LoopState)
    (stream : EventStream) (st1 : LoopState)
    (h : runRound registry parse st stream = (st1, .more)) :
    ∃ t, st1.actualThreadId = some t := by
  rcases runRound_spec registry parse st stream with
    ⟨st2, hps, hr⟩ | ⟨st2, msg, hps, hr⟩ | ⟨st2, ids, rid, tid, hps, hR, hA, hr⟩ |
    ⟨st2, ids, hps, hmiss, hr⟩
  · rw [hr] at h
    simp at h
  · rw [hr] at h
    simp at h
  · rw [hr] at h
    have h1 := congrArg Prod.fst h
    simp only at h1
    rw [← h1]
    exact ⟨tid, hA⟩
  · rw [hr] at h
    simp at h

theorem runRound_none_fixed (registry : ToolRegistry)
    (parse : String → Except String String) (st : LoopState)
    (stream : EventStream) (h : st.actualThreadId = none)
    (hfin : (runRound registry parse st stream).1.actualThreadId = none) :
    (runRound registry parse st stream).1 = st := by
  rcases runRound_spec registry parse st stream with
    ⟨st1, hps, hr⟩ | ⟨st1, msg, hps, hr⟩ | ⟨st1, ids, rid, tid, hps, hR, hA, hr⟩ |
    ⟨st1, ids, hps, hmiss, hr⟩
  · rw [hr] at hfin ⊢
    have hx := processStream_none_fixed st stream h (by rw [hps]; exact hfin)
    rw [hps] at hx
    exact hx
  · rw [hr] at hfin ⊢
    have hx := processStream_none_fixed st stream h (by rw [hps]; exact hfin)
    rw [hps] at hx
    exact hx
  · exfalso
    rw [hr] at hfin
    simp only at hfin
    rw [hA] at hfin
    cases hfin
  · exfalso
    obtain ⟨t, hsome⟩ :=
      processEvents_awaiting_some stream.events st st1 ids
        (processStream_awaiting st stream st1 ids hps)
    rw [hr] at hfin
    simp only at hfin
    rw [hsome] at hfin
    cases hfin

theorem runRound_invariant (registry : ToolRegistry)
    (parse : String → Except String String) (st : LoopState)
    (stream : EventStream) (hinv : st.awaitingCount = st.requests.length) :
    (runRound registry parse st stream).1.awaitingCount
        = (runRound registry parse st stream).1.requests.length
      ∨ ∃ e, (runRound registry parse st stream).2 = RoundOutcome.halt (Except.error e) := by
  obtain ⟨hreq, hcnt⟩ := processStream_counts st stream
  rcases runRound_spec registry parse st stream with
    ⟨st1, hps, hr⟩ | ⟨st1, msg, hps, hr⟩ | ⟨st1, ids, rid, tid, hps, hR, hA, hr⟩ |
    ⟨st1, ids, hps, hmiss, hr⟩
  · rw [hps] at hreq hcnt
    rw [hr]
    left
    simp only at hreq hcnt ⊢
    rw [hcnt, hreq, hinv]
    simp [StreamOutcome.awaitingBump]
  · rw [hr]
    exact Or.inr ⟨msg, rfl⟩
  · rw [hps] at hreq hcnt
    rw [hr]
    left
    simp only at hreq hcnt ⊢
    simp only [List.length_append, List.length_singleton]
    rw [hcnt, hreq, hinv]
    simp [StreamOutcome.awaitingBump]
  · rw [hr]
    exact Or.inr ⟨_, rfl⟩

theorem runLoop_threadId_mono (registry : ToolRegistry)
    (parse : String → Except String String) :
    ∀ (conts : List (Except String EventStream)) (st : LoopState)
      (stream : EventStream) (t : String),
      st.actualThreadId = some t →
      (runLoop registry parse conts st stream).1.actualThreadId = some t := by
  intro conts
  induction conts with
  | nil =>
    intro st stream t h
    simp only [runLoop]
    rcases hr : runRound registry parse st stream with ⟨st1, o⟩
    have hm : st1.actualThreadId = some t := by
      have hx := runRound_threadId_mono registry parse st stream t h
      rw [hr] at hx
      exact hx
    cases o with
    | halt res => exact hm
    | more => exact hm
  | cons c cs ih =>
    intro st stream t h
    simp only [runLoop]
    rcases hr : runRound registry parse st stream with ⟨st1, o⟩
    have hm : st1.actualThreadId = some t := by
      have hx := runRound_threadId_mono registry parse st stream t h
      rw [hr] at hx
      exact hx
    cases o with
    | halt res => exact hm
    | more =>
      cases c with
      | error msg => exact hm
      | ok s' => exact ih st1 s' t hm

theorem runLoop_none_fixed (registry : ToolRegistry)
    (parse : String → Except String String)
    (conts : List (Except String EventStream)) (st : LoopState)
    (stream : EventStream) (h : st.actualThreadId = none)
    (hfin : (runLoop registry parse conts st stream).1.actualThreadId = none) :
    (runLoop registry parse conts st stream).1 = st := by
  cases conts with
  | nil =>
    simp only [runLoop] at hfin ⊢
    rcases hr : runRound registry parse st stream with ⟨st1, o⟩
    rw [hr] at hfin
    cases o with
    | halt res =>
      have hfin' : st1.actualThreadId = none := hfin
      show st1 = st
      have hx := runRound_none_fixed registry parse st stream h (by rw [hr]; exact hfin')
      rw [hr] at hx
      exact hx
    | more =>
      obtain ⟨t, hsome⟩ := runRound_more_some registry parse st stream st1 hr
      have hfin' : st1.actualThreadId = none := hfin
      rw [hsome] at hfin'
      cases hfin'
  | cons c cs =>
    simp only [runLoop] at hfin ⊢
    rcases hr : runRound registry parse st stream with ⟨st1, o⟩
    rw [hr] at hfin
    cases o with
    | halt res =>
      have hfin' : st1.actualThreadId = none := hfin
      show st1 = st
      have hx := runRound_none_fixed registry parse st stream h (by rw [hr]; exact hfin')
      rw [hr] at hx
      exact hx
    | more =>
      obtain ⟨t, hsome⟩ := runRound_more_some registry parse st stream st1 hr
      cases c with
      | error msg =>
        have hfin' : st1.actualThreadId = none := hfin
        rw [hsome] at hfin'
        cases hfin'
      | ok s' =>
        have hfin' : (runLoop registry parse cs st1 s').1.actualThreadId = none := hfin
        rw [runLoop_threadId_mono registry parse cs st1 s' t hsome] at hfin'
        cases hfin'

theorem runLoop_rounds (registry : ToolRegistry)
    (parse : String → Except String String) :
    ∀ (conts : List (Except String EventStream)) (st : LoopState)
      (stream : EventStream),
      st.awaitingCount = st.requests.length →
      (runLoop registry parse conts st stream).1.awaitingCount
          = (runLoop registry parse conts st stream).1.requests.length
        ∨ ∃ e, (runLoop registry parse conts st stream).2 = Except.error e := by
  intro conts
  induction conts with
  | nil =>
    intro st stream hinv
    simp only [runLoop]
    rcases hr : runRound registry parse st stream with ⟨st1, o⟩
    have hx := runRound_invariant registry parse st stream hinv
    rw [hr] at hx
    cases o with
    | halt res =>
      rcases hx with hx | ⟨e, he⟩
      · exact Or.inl hx
      · have he' : res = Except.error e := by
          have := congrArg (fun p => p) he
          simpa using he
        rw [he']
        exact Or.inr ⟨e, rfl⟩
    | more => exact Or.inr ⟨_, rfl⟩
  | cons c cs ih =>
    intro st stream hinv
    simp only [runLoop]
    rcases hr : runRound registry parse st stream with ⟨st1, o⟩
    have hx := runRound_invariant registry parse st stream hinv
    rw [hr] at hx
    cases o with
    | halt res =>
      rcases hx with hx | ⟨e, he⟩
      · exact Or.inl hx
      · have he' : res = Except.error e := by simpa using he
        rw [he']
        exact Or.inr ⟨e, rfl⟩
    | more =>
      cases c with
      | error msg => exact Or.inr ⟨msg, rfl⟩
      | ok s' =>
        apply ih
        rcases hx with hx | ⟨e, he⟩
        · exact hx
        · cases he

/-- Case characterization of the mutation's catch block. -/
theorem runMutation_spec (env : RunEnv) :
    (∃ st tid, runMutationBody env = (st, Except.ok tid)
      ∧ runMutation env
          = { result := .ok tid, dispatched := st.dispatched,
              finalThreadId := st.actualThreadId, awaitingCount := st.awaitingCount,
              requests := st.requests })
    ∨ (∃ st e t0, runMutationBody env = (st, Except.error e)
      ∧ st.actualThreadId = some t0
      ∧ runMutation env
          = { result := .error e,
              dispatched := st.dispatched ++ [(t0, Event.runError e)],
              finalThreadId := some t0, awaitingCount := st.awaitingCount,
              requests := st.requests })
    ∨ (∃ st e, runMutationBody env = (st, Except.error e)
      ∧ st.actualThreadId = none
      ∧ runMutation env
          = { result := .error e, dispatched := st.dispatched,
              finalThreadId := none, awaitingCount := st.awaitingCount,
              requests := st.requests }) := by
  unfold runMutation
  rcases hb : runMutationBody env with ⟨st, res⟩
  cases res with
  | ok tid => exact Or.inl ⟨st, tid, rfl, rfl⟩
  | error e =>
    rcases hA : st.actualThreadId with _ | t0
    · refine Or.inr (Or.inr ⟨st, e, rfl, hA, ?_⟩)
      show (match st.actualThreadId with
        | some tid =>
          ({ result := .error e,
             dispatched := st.dispatched ++ [(tid, Event.runError e)],
             finalThreadId := st.actualThreadId, awaitingCount := st.awaitingCount,
             requests := st.requests } : OrchTrace)
        | none =>
          { result := .error e, dispatched := st.dispatched,
            finalThreadId := st.actualThreadId, awaitingCount := st.awaitingCount,
            requests := st.requests })
          = { result := .error e, dispatched := st.dispatched,
              finalThreadId := none, awaitingCount := st.awaitingCount,
              requests := st.requests }
      rw [hA]
    · refine Or.inr (Or.inl ⟨st, e, t0, rfl, hA, ?_⟩)
      show (match st.actualThreadId with
        | some tid =>
          ({ result := .error e,
             dispatched := st.dispatched ++ [(tid, Event.runError e)],
             finalThreadId := st.actualThreadId, awaitingCount := st.awaitingCount,
             requests := st.requests } : OrchTrace)
        | none =>
          { result := .error e, dispatched := st.dispatched,
            finalThreadId := st.actualThreadId, awaitingCount := st.awaitingCount,
            requests := st.requests })
          = { result := .error e,
              dispatched := st.dispatched ++ [(t0, Event.runError e)],
              finalThreadId := some t0, awaitingCount := st.awaitingCount,
              requests := st.requests }
      rw [hA]

theorem getLast?_append_single {α : Type} (l : List α) (a : α) :
    (l ++ [a]).getLast? = some a :=
  List.getLast?_concat l

/-- C2: whenever a mutation fails after the orchestrator has learned a
thread id, the last action dispatched to the stream reducer is a
synthetic RUN_ERROR event carrying the failure message for that thread
(dispatched before the same failure is re-thrown as the mutation's
result), and the reducer maps that RUN_ERROR event to the terminal
`error` status for both the thread and its streaming state, so the
thread does not stay stuck in `streaming`. -/
theorem c2_failure_dispatches_run_error (env : RunEnv) (e : String) (tid : String)
    (h1 : (runMutation env).result = Except.error e)
    (h2 : (runMutation env).finalThreadId = some tid) :
    (runMutation env).dispatched.getLast? = some (tid, Event.runError e)
    ∧ ∀ s : StreamState,
        (threadEntryAt (streamReducer s (StreamAction.event tid (Event.runError e))) tid).thread.status
            = ThreadStatus.error
        ∧ (threadEntryAt (streamReducer s (StreamAction.event tid (Event.runError e))) tid).streaming.status
            = StreamingStatus.error := by
  constructor
  · rcases runMutation_spec env with ⟨st, tid', hb, hm⟩ | ⟨st, e', t0, hb, hA, hm⟩ |
      ⟨st, e', hb, hA, hm⟩
    · rw [hm] at h1
      exact absurd h1 (by simp)
    · rw [hm] at h1 h2
      simp only [Except.error.injEq] at h1
      simp only [Option.some.injEq] at h2
      rw [hm, h1, h2]
      exact getLast?_append_single _ _
    · rw [hm] at h2
      exact absurd h2 (by simp)
  · intro s
    rw [threadEntryAt_event]
    exact ⟨rfl, rfl⟩

/-- Concrete instance of C2: a transport failure right after RUN_STARTED
dispatches a synthetic RUN_ERROR for the learned thread as the final
action. -/
def c2Env : RunEnv :=
  { initialThreadId := none,
    initialStream := { events := [Event.runStarted "r1" "t1"], terminalError := some "boom" },
    continuations := [], registry := [], parse := fun s => Except.ok s }

theorem c2_failure_dispatches_run_error_witness :
    (runMutation c2Env).dispatched.getLast? = some ("t1", Event.runError "boom") :=
  (c2_failure_dispatches_run_error c2Env "boom" "t1" rfl rfl).1

/-- C3: in every run, either every awaiting-input event the
orchestrator observed is matched by exactly one continuation request
(their counts agree), or the run terminates with an error; and each
continuation request issued by `executeToolsAndContinue` carries the
prior run id as `previousRunId`, targets the learned thread, and
carries as message content precisely the results of executing the
tracked tool calls named by the awaiting-input event. The multi-round
loop replaces the current stream iteratively per round. -/
theorem c3_awaiting_input_matched_by_continuation (env : RunEnv) :
    ((runMutation env).awaitingCount = (runMutation env).requests.length
      ∨ ∃ e, (runMutation env).result = Except.error e)
    ∧ ∀ (ids : List String) (tr : ToolCallTracker) (tid rid : String),
        (executeToolsAndContinue ids tr env.registry env.parse tid rid).1.previousRunId = rid
        ∧ (executeToolsAndContinue ids tr env.registry env.parse tid rid).1.threadId = tid
        ∧ (executeToolsAndContinue ids tr env.registry env.parse tid rid).1.content
            = executeAllPendingTools (tr.getToolCallsById ids) env.registry env.parse := by
  constructor
  · have h : (runMutationBody env).1.awaitingCount = (runMutationBody env).1.requests.length
        ∨ ∃ e, (runMutationBody env).2 = Except.error e :=
      runLoop_rounds env.registry env.parse env.continuations (initialLoopState env)
        env.initialStream rfl
    rcases runMutation_spec env with ⟨st, tid, hb, hm⟩ | ⟨st, e, t0, hb, hA, hm⟩ |
      ⟨st, e, hb, hA, hm⟩
    · rw [hb] at h
      rcases h with h | ⟨e, he⟩
      · rw [hm]
        exact Or.inl h
      · exact absurd he (by simp)
    · rw [hm]
      exact Or.inr ⟨e, rfl⟩
    · rw [hm]
      exact Or.inr ⟨e, rfl⟩
  · intro ids tr tid rid
    exact ⟨rfl, rfl, rfl⟩

/-- C10: for a run creating a new thread (no initial thread id), if no
thread id was ever learned, then nothing at all was dispatched to the
stream reducer — in particular the catch block dispatches nothing —
folding the dispatched actions over any stream state leaves it
unchanged, and the mutation's result is exactly the body's outcome (the
original error is re-thrown unaltered). -/
theorem c10_no_thread_id_no_dispatch (env : RunEnv)
    (h1 : env.initialThreadId = none)
    (h2 : (runMutation env).finalThreadId = none) :
    (runMutation env).dispatched = []
    ∧ (runMutation env).result = (runMutationBody env).2
    ∧ ∀ s : StreamState,
        List.foldl (fun acc p => streamReducer acc (StreamAction.event p.1 p.2)) s
          (runMutation env).dispatched = s := by
  have hA0 : (initialLoopState env).actualThreadId = none := h1
  rcases runMutation_spec env with ⟨st, tid, hb, hm⟩ | ⟨st, e, t0, hb, hA, hm⟩ |
    ⟨st, e, hb, hA, hm⟩
  · rw [hm] at h2
    have hAn : st.actualThreadId = none := h2
    have hAn' : (runMutationBody env).1.actualThreadId = none := by
      rw [hb]
      exact hAn
    have hfix : (runMutationBody env).1 = initialLoopState env :=
      runLoop_none_fixed env.registry env.parse env.continuations (initialLoopState env)
        env.initialStream hA0 hAn'
    rw [hb] at hfix
    have hst : st = initialLoopState env := hfix
    rw [hm, hb, hst]
    exact ⟨rfl, rfl, fun s => rfl⟩
  · rw [hm] at h2
    exact absurd h2 (by simp)
  · have hA' : (runMutationBody env).1.actualThreadId = none := by
      rw [hb]
      exact hA
    have hfix : (runMutationBody env).1 = initialLoopState env :=
      runLoop_none_fixed env.registry env.parse env.continuations (initialLoopState env)
        env.initialStream hA0 hA'
    rw [hb] at hfix
    have hst : st = initialLoopState env := hfix
    rw [hm, hb, hst]
    exact ⟨rfl, rfl, fun s => rfl⟩

/-- Concrete instance of C10: the transport fails before yielding any
event of the new-thread run, so nothing is dispatched and the error is
re-thrown as-is. -/
def c10Env : RunEnv :=
  { initialThreadId := none,
    initialStream := { events := [], terminalError := some "network down" },
    continuations := [], registry := [], parse := fun s => Except.ok s }

theorem c10_no_thread_id_no_dispatch_witness :
    (runMutation c10Env).dispatched = []
    ∧ (runMutation c10Env).result = Except.error "network down" := by
  have h := c10_no_thread_id_no_dispatch c10Env rfl rfl
  refine ⟨h.1, ?_⟩
  rw [h.2.1]
  rfl

/-- Environment of the counterexample to C1: a run on an existing
thread whose fresh stream begins with TEXT_MESSAGE_START. -/
def c1Env : RunEnv :=
  { initialThreadId := some "t1",
    initialStream :=
      { events := [Event.textMessageStart "m1" Role.assistant, Event.runFinished],
        terminalError := none },
    continuations := [], registry := [], parse := fun s => Except.ok s }

/-- Counterexample to C1 as stated over every run: in a run on an
existing thread, the first event pulled from the fresh stream is
TEXT_MESSAGE_START rather than RUN_STARTED, yet the run is not aborted:
it completes successfully and both stream events are processed and
dispatched. -/
theorem c1_counterexample_existing_thread :
    (runMutation c1Env).result = Except.ok (some "t1")
    ∧ (runMutation c1Env).dispatched
        = [("t1", Event.textMessageStart "m1" Role.assistant), ("t1", Event.runFinished)] :=
  ⟨rfl, rfl⟩

theorem stepEvent_fail_of_none (st : LoopState) (e : Event)
    (hA : st.actualThreadId = none) (h3 : ∀ rid tid, e ≠ Event.runStarted rid tid) :
    stepEvent st e
      = .fail ("Expected first event to be RUN_STARTED with threadId, got: " ++ e.typeName) := by
  cases e
  case runStarted rid tid => exact absurd rfl (h3 rid tid)
  all_goals simp [stepEvent, hA]

/-- C1 (amended): for every run that is creating a new thread (no
thread id is known when the fresh stream is opened), if the first event
pulled from the stream is not a RUN_STARTED event, the run is aborted
as a protocol violation: the mutation fails with an error, and the run
does not continue processing events — nothing is dispatched, no
awaiting-input event is observed and no continuation request is issued. -/
theorem c1_protocol_violation_aborts_new_thread_run (env : RunEnv) (e : Event)
    (rest : List Event) (h1 : env.initialThreadId = none)
    (h2 : env.initialStream.events = e :: rest)
    (h3 : ∀ rid tid, e ≠ Event.runStarted rid tid) :
    (∃ msg, (runMutation env).result = Except.error msg)
    ∧ (runMutation env).dispatched = []
    ∧ (runMutation env).requests = []
    ∧ (runMutation env).awaitingCount = 0 := by
  have hA0 : (initialLoopState env).actualThreadId = none := h1
  have hstep := stepEvent_fail_of_none (initialLoopState env) e hA0 h3
  have hpe : processEvents (initialLoopState env) (e :: rest)
      = (initialLoopState env,
          .failed ("Expected first event to be RUN_STARTED with threadId, got: "
            ++ e.typeName)) := by
    simp only [processEvents, hstep]
  have hps : processStream (initialLoopState env) env.initialStream
      = (initialLoopState env,
          .failed ("Expected first event to be RUN_STARTED with threadId, got: "
            ++ e.typeName)) := by
    unfold processStream
    rw [h2, hpe]
  have hrr : runRound env.registry env.parse (initialLoopState env) env.initialStream
      = (initialLoopState env,
          .halt (.error ("Expected first event to be RUN_STARTED with threadId, got: "
            ++ e.typeName))) := by
    unfold runRound
    rw [hps]
  have hb : runMutationBody env
      = (initialLoopState env,
          .error ("Expected first event to be RUN_STARTED with threadId, got: "
            ++ e.typeName)) := by
    unfold runMutationBody
    cases hc : env.continuations with
    | nil => simp only [runLoop, hrr]
    | cons c cs => simp only [runLoop, hrr]
  rcases runMutation_spec env with ⟨st, tid, hb', hm⟩ | ⟨st, e0, t0, hb', hA, hm⟩ |
    ⟨st, e0, hb', hA, hm⟩
  · rw [hb] at hb'
    exact absurd (congrArg Prod.snd hb') (by simp)
  · rw [hb] at hb'
    have hst := congrArg Prod.fst hb'
    simp only at hst
    rw [← hst] at hA
    rw [hA0] at hA
    cases hA
  · rw [hb] at hb'
    have hst := congrArg Prod.fst hb'
    simp only at hst
    rw [hm]
    refine ⟨⟨e0, rfl⟩, ?_, ?_, ?_⟩
    · rw [← hst]
      rfl
    · rw [← hst]
      rfl
    · rw [← hst]
      rfl

/-- Concrete instance of the amended C1: a new-thread run whose first
event is TEXT_MESSAGE_START aborts with the protocol error and
dispatches nothing. -/
def c1bEnv : RunEnv :=
  { initialThreadId := none,
    initialStream :=
      { events := [Event.textMessageStart "m1" Role.assistant], terminalError := none },
    continuations := [], registry := [], parse := fun s => Except.ok s }

theorem c1_protocol_violation_aborts_new_thread_run_witness :
    (∃ msg, (runMutation c1bEnv).result = Except.error msg)
    ∧ (runMutation c1bEnv).dispatched = []
    ∧ (runMutation c1bEnv).requests = []
    ∧ (runMutation c1bEnv).awaitingCount = 0 :=
  c1_protocol_violation_aborts_new_thread_run c1bEnv
    (Event.textMessageStart "m1" Role.assistant) [] rfl rfl
    (fun _ _ h => Event.noConfusion h)

end Tambo
